import Mathlib

/-!
Verification of the Activity Ledger and Leaderboard component of the
telegram-bot repository.

The file-backed variant (the module holding `getUser`, `updateUser`,
`incrementUserActivity`, `getLeaderboard`, `checkRateLimit`, `restoreBackup`)
is embedded as pure functions over an explicit store; the SQL-backed variant
(`db.js`) is embedded as pure functions over a list of table rows; the
event classifier `getMessageType` (`bot.js`) is embedded over a record of
payload-presence flags.

Timestamps (ISO strings produced by `new Date()` in the source) are opaque
to every property considered here, so they are modelled as an abstract
`Nat` value `now` supplied to each operation.  JS `null`/`undefined` string
fields are modelled as `Option String` with `none` for null.  The wall-clock
milliseconds used by the rate limiter are modelled as `Int` so that
`now - windowMs` keeps JS arithmetic (no truncation at zero).
-/

namespace TelegramBot

/-- A per-user activity record, as created by `getUser` in the file-backed
data module: `{ id, messageCount, stickerCount, totalActivity, firstSeen,
lastSeen, username, firstName }`. -/
structure UserRec where
  id : Nat
  messageCount : Nat
  stickerCount : Nat
  totalActivity : Nat
  firstSeen : Nat
  lastSeen : Nat
  username : Option String
  firstName : Option String
  deriving Repr, DecidableEq

/-- The in-memory `userData.users` object: a keyed collection of records.
Modelled as an association list keyed by userId. -/
abbrev Store := List (Nat × UserRec)

/-- Property-style membership test `userData.users[userId]` (undefined vs a
record). First matching key wins. -/
def findRec : Store → Nat → Option UserRec
  | [], _ => none
  | (k, v) :: rest, uid => if k = uid then some v else findRec rest uid

/-- Assignment `userData.users[userId] = u`: replaces the binding if the key
is present, appends a fresh binding otherwise (JS object key insertion). -/
def setRec : Store → Nat → UserRec → Store
  | [], uid, u => [(uid, u)]
  | (k, v) :: rest, uid, u =>
    if k = uid then (k, u) :: rest else (k, v) :: setRec rest uid u

/-- The fresh record `getUser` builds when `userData.users[userId]` is
undefined: all counters zero, both display fields null, both timestamps set
to the current time. -/
def emptyUser (uid now : Nat) : UserRec :=
  { id := uid, messageCount := 0, stickerCount := 0, totalActivity := 0,
    firstSeen := now, lastSeen := now, username := none, firstName := none }

/-- `getUser(userId)`: get-or-create.  Returns the record together with the
(possibly extended) store. -/
def getUser (s : Store) (uid now : Nat) : UserRec × Store :=
  match findRec s uid with
  | some u => (u, s)
  | none => (emptyUser uid now, setRec s uid (emptyUser uid now))

/-- An `updates` object passed to `updateUser`.  A field set to `none` is
absent from the object; `some v` means the key is present with value `v`
(`some none` models an explicit JS `null`/`undefined` value for a nullable
string field).  `Object.assign` copies exactly the present keys. -/
structure Updates where
  username : Option (Option String) := none
  firstName : Option (Option String) := none
  messageCount : Option Nat := none
  stickerCount : Option Nat := none
  totalActivity : Option Nat := none
  deriving Repr, DecidableEq

/-- `Object.assign(user, updates)`: each key present in `updates` overwrites
the record's field, absent keys leave the field unchanged. -/
def objectAssign (u : UserRec) (p : Updates) : UserRec :=
  { u with
    username := p.username.getD u.username
    firstName := p.firstName.getD u.firstName
    messageCount := p.messageCount.getD u.messageCount
    stickerCount := p.stickerCount.getD u.stickerCount
    totalActivity := p.totalActivity.getD u.totalActivity }

/-- `updateUser(userId, updates)`: get-or-create, `Object.assign`, touch
`lastSeen`, then recompute `totalActivity = messageCount + stickerCount`. -/
def updateUser (s : Store) (uid : Nat) (p : Updates) (now : Nat) : Store :=
  let r := getUser s uid now
  let u1 := objectAssign r.1 p
  setRec r.2 uid
    { u1 with lastSeen := now,
              totalActivity := u1.messageCount + u1.stickerCount }

/-- `incrementUserActivity(userId, type)`: get-or-create, bump
`stickerCount` when `type === 'sticker'` and `messageCount` otherwise, then
recompute `totalActivity` and touch `lastSeen`. -/
def incrementUserActivity (s : Store) (uid : Nat) (type : String) (now : Nat) :
    Store :=
  let r := getUser s uid now
  let u1 :=
    if type = "sticker" then
      { r.1 with stickerCount := r.1.stickerCount + 1 }
    else
      { r.1 with messageCount := r.1.messageCount + 1 }
  setRec r.2 uid
    { u1 with totalActivity := u1.messageCount + u1.stickerCount,
              lastSeen := now }

/-! ### Leaderboard (file-backed variant and SQL variant)

`.sort((a, b) => b.totalActivity - a.totalActivity)` orders by the key
descending; only the ordering of the output matters to the properties below
(the source relies on the engine's stable sort for ties, a behaviour the
spec leaves open), and a stable insertion sort by a `Nat` key realises it. -/

/-- Insert into a list kept in non-increasing key order, after all existing
elements of greater-or-equal key (stability for ties). -/
def insertByDesc (key : α → Nat) (u : α) : List α → List α
  | [] => [u]
  | v :: vs =>
    if key u ≤ key v then v :: insertByDesc key u vs else u :: v :: vs

/-- Stable sort into non-increasing key order. -/
def sortByDesc (key : α → Nat) : List α → List α
  | [] => []
  | u :: us => insertByDesc key u (sortByDesc key us)

/-- `users.map((user, index) => ({ rank: index + 1, ...user }))`: pair every
element with its 1-based output position, starting after `i` earlier
entries. -/
def ranked : Nat → List α → List (Nat × α)
  | _, [] => []
  | i, u :: us => (i + 1, u) :: ranked (i + 1) us

/-- `getLeaderboard(limit)` of the file-backed variant: keep records with
`totalActivity > 0`, sort by `totalActivity` descending, truncate to
`limit`, and attach ranks 1, 2, … by output position. -/
def getLeaderboard (s : Store) (limit : Nat) : List (Nat × UserRec) :=
  let users :=
    ((s.map Prod.snd).filter (fun u => 0 < u.totalActivity)
      |> sortByDesc UserRec.totalActivity).take limit
  ranked 0 users

/-- A row of the SQL `users` table (`db.js`): nullable display columns and
the two counters; `total_activity` is computed in the query. -/
structure SqlRow where
  id : Nat
  username : Option String
  first_name : Option String
  last_name : Option String
  message_count : Nat
  sticker_count : Nat
  deriving Repr, DecidableEq

/-- `(message_count + sticker_count) as total_activity`. -/
def SqlRow.total_activity (r : SqlRow) : Nat :=
  r.message_count + r.sticker_count

/-- `getLeaderboard(limit)` of the SQL variant: `SELECT … FROM users ORDER BY
total_activity DESC LIMIT $1`, then rank by output position.  No
`total_activity > 0` filter. -/
def dbGetLeaderboard (rows : List SqlRow) (limit : Nat) :
    List (Nat × SqlRow) :=
  ranked 0 ((sortByDesc SqlRow.total_activity rows).take limit)

/-- The `INSERT … ON CONFLICT (id) DO UPDATE SET username = EXCLUDED.username,
first_name = EXCLUDED.first_name, last_name = EXCLUDED.last_name` statement of
`createOrUpdateUser`: a fresh row gets zero counters; an existing row keeps
its counters but has every display column overwritten by the supplied values,
null included. -/
def createOrUpdateUser (rows : List SqlRow) (id : Nat)
    (username first_name last_name : Option String) : List SqlRow :=
  match rows.find? (fun r => r.id = id) with
  | none =>
    rows ++ [{ id := id, username := username, first_name := first_name,
               last_name := last_name, message_count := 0,
               sticker_count := 0 }]
  | some _ =>
    rows.map (fun r =>
      if r.id = id then
        { r with username := username, first_name := first_name,
                 last_name := last_name }
      else r)

/-! ### Rate limiter -/

/-- The `rateLimits` map: identifier → list of request timestamps
(milliseconds). -/
abbrev RateLimits := List (String × List Int)

def findTimes : RateLimits → String → Option (List Int)
  | [], _ => none
  | (k, v) :: rest, id => if k = id then some v else findTimes rest id

def setTimes : RateLimits → String → List Int → RateLimits
  | [], id, ts => [(id, ts)]
  | (k, v) :: rest, id, ts =>
    if k = id then (k, ts) :: rest else (k, v) :: setTimes rest id ts

/-- `checkRateLimit(identifier, limit, windowMs)` at wall-clock time `now`:
ensure the identifier has an entry, keep only timestamps strictly newer than
`now - windowMs`, reject without recording when the kept count reaches
`limit`, otherwise append `now` and accept. -/
def checkRateLimit (st : RateLimits) (identifier : String)
    (limit : Nat) (windowMs : Nat) (now : Int) : Bool × RateLimits :=
  let windowStart : Int := now - windowMs
  let st1 :=
    match findTimes st identifier with
    | some _ => st
    | none => setTimes st identifier []
  let requests := (findTimes st1 identifier).getD []
  let validRequests := requests.filter (fun time => windowStart < time)
  if limit ≤ validRequests.length then
    (false, st1)
  else
    (true, setTimes st1 identifier (validRequests ++ [now]))

/-- Run `checkRateLimit` for one identifier at a sequence of wall-clock
times, collecting the returned booleans. -/
def runRateLimit (st : RateLimits) (identifier : String)
    (limit windowMs : Nat) : List Int → List Bool × RateLimits
  | [] => ([], st)
  | now :: rest =>
    let r := checkRateLimit st identifier limit windowMs now
    let rs := runRateLimit r.2 identifier limit windowMs rest
    (r.1 :: rs.1, rs.2)

/-- Modelled from the spec: the pruning step as §4.4 words it — "prune
entries older than `now - windowMs`" — keeps every timestamp at least
`now - windowMs`, discarding only strictly older ones; the remainder of the
procedure is as the spec describes (reject without recording at `limit`,
otherwise record `now` and accept). -/
def specCheckRateLimit (st : RateLimits) (identifier : String)
    (limit : Nat) (windowMs : Nat) (now : Int) : Bool × RateLimits :=
  let windowStart : Int := now - windowMs
  let st1 :=
    match findTimes st identifier with
    | some _ => st
    | none => setTimes st identifier []
  let requests := (findTimes st1 identifier).getD []
  let validRequests := requests.filter (fun time => windowStart ≤ time)
  if limit ≤ validRequests.length then
    (false, st1)
  else
    (true, setTimes st1 identifier (validRequests ++ [now]))

/-! ### Backup restore -/

/-- `restoreBackup(filename)`: the backup directory is a mapping from file
name to raw content, and `JSON.parse` composed with the assignment
`userData = backupData` is abstracted by a `parse` function producing the
record set, `none` when parsing throws.  A missing file returns `false`; a
parse failure is caught and returns `false`; only a fully parsed payload
replaces the current state. -/
def restoreBackup (parse : String → Option Store)
    (files : List (String × String)) (current : Store)
    (filename : String) : Bool × Store :=
  match files.find? (fun f => f.1 = filename) with
  | none => (false, current)
  | some f =>
    match parse f.2 with
    | none => (false, current)
    | some d => (true, d)

/-! ### Event classification (`bot.js`) -/

/-- The payload-presence flags of an inbound transport event: each field is
the JS truthiness of the corresponding property of `msg`. -/
structure Msg where
  sticker : Bool
  photo : Bool
  video : Bool
  document : Bool
  voice : Bool
  text : Bool
  deriving Repr, DecidableEq

/-- `getMessageType(msg)`: the if-chain of `bot.js`. -/
def getMessageType (m : Msg) : String :=
  if m.sticker then ("sticker")
  else if m.photo then ("photo")
  else if m.video then ("video")
  else if m.document then ("document")
  else if m.voice then ("voice")
  else if m.text then ("text")
  else ("other")

/-- Whether the event carries the payload designated by a tag. -/
def payloadPresent (m : Msg) : String → Bool
  | "sticker" => m.sticker
  | "photo" => m.photo
  | "video" => m.video
  | "document" => m.document
  | "voice" => m.voice
  | "text" => m.text
  | _ => false

/-- Modelled from the spec: the classification precedence list
sticker > photo > video > document > voice > text, first match winning,
falling back to `other`. -/
def classifySpec (m : Msg) : String :=
  (["sticker", "photo", "video", "document", "voice", "text"].find?
    (payloadPresent m)).getD ("other")

/-! ### Ledger call sequences (for the `totalActivity` invariant) -/

/-- One mutating ledger call for a fixed userId: an `updateUser` with some
updates object, or an `incrementUserActivity` with some event type.  Each
call carries the wall-clock value observed during it. -/
inductive LedgerOp where
  | update (p : Updates) (now : Nat)
  | increment (type : String) (now : Nat)
  deriving Repr, DecidableEq

def applyOp (s : Store) (uid : Nat) : LedgerOp → Store
  | .update p now => updateUser s uid p now
  | .increment type now => incrementUserActivity s uid type now

def applyOps (s : Store) (uid : Nat) (ops : List LedgerOp) : Store :=
  ops.foldl (fun st op => applyOp st uid op) s

/-- The derived-field invariant of a record. -/
def recInv (u : UserRec) : Prop :=
  u.totalActivity = u.messageCount + u.stickerCount

instance (u : UserRec) : Decidable (recInv u) := by
  unfold recInv; infer_instance

/-- The invariant over a whole store. -/
def storeInv (s : Store) : Prop :=
  ∀ kv ∈ s, recInv (Prod.snd kv)

/-! ### Concrete data for the worked examples -/

/-- A record with `totalActivity` 15, as in the spec's worked leaderboard
example (`A: total 15`). -/
def exampleUserA : UserRec :=
  { id := 1, messageCount := 15, stickerCount := 0, totalActivity := 15,
    firstSeen := 0, lastSeen := 0, username := none, firstName := none }

/-- `B: total 11`. -/
def exampleUserB : UserRec :=
  { id := 2, messageCount := 8, stickerCount := 3, totalActivity := 11,
    firstSeen := 0, lastSeen := 0, username := none, firstName := none }

/-- `C: total 7`. -/
def exampleUserC : UserRec :=
  { id := 3, messageCount := 7, stickerCount := 0, totalActivity := 7,
    firstSeen := 0, lastSeen := 0, username := none, firstName := none }

/-- The store holding the three worked-example records. -/
def exampleStore : Store :=
  [(1, exampleUserA), (2, exampleUserB), (3, exampleUserC)]

/-- A SQL row with both counters zero (`total_activity` 0). -/
def zeroRow : SqlRow :=
  { id := 9, username := none, first_name := none, last_name := none,
    message_count := 0, sticker_count := 0 }

/-- A stored record whose username is the non-null string "alice". -/
def aliceRec : UserRec :=
  { id := 5, messageCount := 2, stickerCount := 1, totalActivity := 3,
    firstSeen := 0, lastSeen := 0, username := some ("alice"),
    firstName := some ("A") }

/-- A SQL row whose username is the non-null string "alice". -/
def aliceRow : SqlRow :=
  { id := 5, username := some ("alice"), first_name := some ("A"),
    last_name := none, message_count := 2, sticker_count := 1 }

/-- An `updates` object whose `username` key is present with a null value
(as a caller passes when `msg.from.username` is undefined). -/
def nullPatch : Updates := { username := some none }

/-- A rate-limiter state holding one request at millisecond 0 for
identifier "u". -/
def rlBoundaryState : RateLimits := [("u", [0])]

/-! ### Basic store lemmas -/

theorem findRec_setRec_self (s : Store) (uid : Nat) (u : UserRec) :
    findRec (setRec s uid u) uid = some u := by
  induction s with
  | nil => simp [setRec, findRec]
  | cons kv rest ih =>
    obtain ⟨k, v⟩ := kv
    by_cases h : k = uid
    · simp [setRec, findRec, h]
    · simp [setRec, findRec, h, ih]

theorem findRec_getUser (s : Store) (uid now : Nat) :
    findRec (getUser s uid now).2 uid = some (getUser s uid now).1 := by
  unfold getUser
  cases h : findRec s uid with
  | some u => simp [h]
  | none => simp [h, findRec_setRec_self]

theorem getUser_of_absent (s : Store) (uid now : Nat)
    (h : findRec s uid = none) :
    (getUser s uid now).1 = emptyUser uid now := by
  simp [getUser, h]

theorem getUser_of_found (s : Store) (uid now : Nat) (u : UserRec)
    (h : findRec s uid = some u) :
    getUser s uid now = (u, s) := by
  simp [getUser, h]

theorem getUser_getUser (s : Store) (uid now now2 : Nat) :
    getUser (getUser s uid now).2 uid now2 =
      ((getUser s uid now).1, (getUser s uid now).2) := by
  exact getUser_of_found _ uid now2 _ (findRec_getUser s uid now)

/-! ### Sorting and ranking lemmas -/

theorem mem_insertByDesc {key : α → Nat} {u x : α} {l : List α} :
    x ∈ insertByDesc key u l ↔ x = u ∨ x ∈ l := by
  induction l with
  | nil => simp [insertByDesc]
  | cons v vs ih =>
    by_cases h : key u ≤ key v
    · simp only [insertByDesc, if_pos h, List.mem_cons, ih]
      tauto
    · simp [insertByDesc, if_neg h]

theorem pairwise_insertByDesc {key : α → Nat} {u : α} {l : List α}
    (hl : l.Pairwise (fun a b => key b ≤ key a)) :
    (insertByDesc key u l).Pairwise (fun a b => key b ≤ key a) := by
  induction l with
  | nil => simp [insertByDesc]
  | cons v vs ih =>
    rw [List.pairwise_cons] at hl
    by_cases h : key u ≤ key v
    · rw [insertByDesc, if_pos h, List.pairwise_cons]
      refine ⟨?_, ih hl.2⟩
      intro x hx
      rcases mem_insertByDesc.1 hx with rfl | hx'
      · exact h
      · exact hl.1 x hx'
    · rw [insertByDesc, if_neg h, List.pairwise_cons]
      push_neg at h
      refine ⟨?_, List.pairwise_cons.2 hl⟩
      intro x hx
      rcases List.mem_cons.1 hx with rfl | hx'
      · exact le_of_lt h
      · exact le_trans (hl.1 x hx') (le_of_lt h)

theorem sortByDesc_pairwise (key : α → Nat) (l : List α) :
    (sortByDesc key l).Pairwise (fun a b => key b ≤ key a) := by
  induction l with
  | nil => simp [sortByDesc]
  | cons u us ih => exact pairwise_insertByDesc ih

theorem mem_sortByDesc {key : α → Nat} {x : α} {l : List α} :
    x ∈ sortByDesc key l ↔ x ∈ l := by
  induction l with
  | nil => simp [sortByDesc]
  | cons u us ih =>
    simp only [sortByDesc, mem_insertByDesc, ih, List.mem_cons]

theorem sortByDesc_eq_nil {key : α → Nat} {l : List α} (h : l = []) :
    sortByDesc key l = [] := by
  subst h; rfl

theorem ranked_length (i : Nat) (l : List α) :
    (ranked i l).length = l.length := by
  induction l generalizing i with
  | nil => rfl
  | cons u us ih => simp [ranked, ih]

theorem mem_ranked {i : Nat} {l : List α} {x : Nat × α}
    (hx : x ∈ ranked i l) : x.2 ∈ l := by
  induction l generalizing i with
  | nil => simp [ranked] at hx
  | cons u us ih =>
    rw [ranked, List.mem_cons] at hx
    rcases hx with rfl | hx'
    · exact List.mem_cons_self _ _
    · exact List.mem_cons_of_mem _ (ih hx')

theorem pairwise_ranked {R : α → α → Prop} {l : List α}
    (hl : l.Pairwise R) (i : Nat) :
    (ranked i l).Pairwise (fun a b => R a.2 b.2) := by
  induction l generalizing i with
  | nil => simp [ranked]
  | cons u us ih =>
    rw [List.pairwise_cons] at hl
    rw [ranked, List.pairwise_cons]
    exact ⟨fun x hx => hl.1 x.2 (mem_ranked hx), ih hl.2 (i + 1)⟩

theorem ranked_get (l : List α) (i j : Nat) (h : j < (ranked i l).length) :
    ((ranked i l).get ⟨j, h⟩).1 = i + j + 1 := by
  induction l generalizing i j with
  | nil => simp [ranked] at h
  | cons u us ih =>
    cases j with
    | zero => rfl
    | succ j' =>
      have h' : j' < (ranked (i + 1) us).length := by
        simpa [ranked, Nat.succ_lt_succ_iff] using h
      have := ih (i + 1) j' h'
      simpa [ranked, this, Nat.add_assoc, Nat.add_comm, Nat.add_left_comm]
        using this

/-! ### Invariant lemmas for ledger call sequences -/

theorem storeInv_setRec {s : Store} {uid : Nat} {u : UserRec}
    (hs : storeInv s) (hu : recInv u) : storeInv (setRec s uid u) := by
  induction s with
  | nil =>
    intro kv hkv
    simp only [setRec, List.mem_singleton] at hkv
    subst hkv
    exact hu
  | cons kv0 rest ih =>
    obtain ⟨k, v⟩ := kv0
    have hrest : storeInv rest := fun kv hkv =>
      hs kv (List.mem_cons_of_mem _ hkv)
    intro kv hkv
    by_cases h : k = uid
    · simp only [setRec, if_pos h, List.mem_cons] at hkv
      rcases hkv with rfl | hkv'
      · exact hu
      · exact hrest kv hkv'
    · simp only [setRec, if_neg h, List.mem_cons] at hkv
      rcases hkv with rfl | hkv'
      · exact hs (k, v) (List.mem_cons_self _ _)
      · exact ih hrest kv hkv'

theorem recInv_emptyUser (uid now : Nat) : recInv (emptyUser uid now) := rfl

theorem storeInv_getUser {s : Store} (uid now : Nat) (hs : storeInv s) :
    storeInv (getUser s uid now).2 := by
  unfold getUser
  cases h : findRec s uid with
  | some u => simpa [h] using hs
  | none =>
    simpa [h] using storeInv_setRec hs (recInv_emptyUser uid now)

theorem applyOp_findRec (s : Store) (uid : Nat) (op : LedgerOp) :
    ∃ u, findRec (applyOp s uid op) uid = some u ∧ recInv u := by
  cases op with
  | update p now => exact ⟨_, findRec_setRec_self .., rfl⟩
  | increment type now =>
    unfold applyOp incrementUserActivity
    by_cases h : type = "sticker"
    · simp only [if_pos h]
      exact ⟨_, findRec_setRec_self .., rfl⟩
    · simp only [if_neg h]
      exact ⟨_, findRec_setRec_self .., rfl⟩

theorem applyOp_storeInv {s : Store} (uid : Nat) (op : LedgerOp)
    (hs : storeInv s) : storeInv (applyOp s uid op) := by
  cases op with
  | update p now =>
    exact storeInv_setRec (storeInv_getUser uid now hs) rfl
  | increment type now =>
    unfold applyOp incrementUserActivity
    by_cases h : type = "sticker"
    · simp only [if_pos h]
      exact storeInv_setRec (storeInv_getUser uid now hs) rfl
    · simp only [if_neg h]
      exact storeInv_setRec (storeInv_getUser uid now hs) rfl

theorem applyOps_storeInv {s : Store} (uid : Nat) (ops : List LedgerOp)
    (hs : storeInv s) : storeInv (applyOps s uid ops) := by
  induction ops generalizing s with
  | nil => exact hs
  | cons op rest ih => exact ih (applyOp_storeInv uid op hs)

theorem applyOps_take_succ (s : Store) (uid : Nat) (ops : List LedgerOp)
    (n : Nat) (hn : n < ops.length) :
    applyOps s uid (ops.take (n + 1)) =
      applyOp (applyOps s uid (ops.take n)) uid (ops.get ⟨n, hn⟩) := by
  rw [List.take_succ, List.getElem?_eq_getElem hn]
  unfold applyOps
  rw [List.foldl_append]
  rfl

/-! ### The claims -/

/-- C1: for every sequence of mutating ledger calls (`updateUser` with an
arbitrary updates object — so even one that tries to set `totalActivity`
directly — or `incrementUserActivity` with an arbitrary event type) applied
to a fixed userId and starting from an arbitrary store, the userId's record
exists and satisfies `totalActivity = messageCount + stickerCount` after
each call; and the derived-field invariant, once it holds of every record,
is preserved across the whole sequence. -/
theorem totalActivity_invariant (s : Store) (uid : Nat)
    (ops : List LedgerOp) (n : Nat) :
    (n < ops.length →
      ∃ u, findRec (applyOps s uid (ops.take (n + 1))) uid = some u ∧
        u.totalActivity = u.messageCount + u.stickerCount)
  ∧ (storeInv s → storeInv (applyOps s uid ops)) := by
  constructor
  · intro hn
    rw [applyOps_take_succ s uid ops n hn]
    exact applyOp_findRec _ uid _
  · intro hs
    exact applyOps_storeInv uid ops hs

/-- Witness for C1 at a concrete input: one `incrementUserActivity` call of
type "text" for userId 5 on the empty store. -/
theorem totalActivity_invariant_witness :
    (∃ u, findRec (applyOps [] 5 ([LedgerOp.increment ("text") 0].take (0 + 1)))
        5 = some u ∧
      u.totalActivity = u.messageCount + u.stickerCount)
  ∧ storeInv (applyOps [] 5 [LedgerOp.increment ("text") 0]) := by
  have h := totalActivity_invariant [] 5 [LedgerOp.increment ("text") 0] 0
  refine ⟨h.1 (by decide), h.2 ?_⟩
  intro kv hkv
  simp at hkv

/-- C2: `getUser` never fails: afterwards the store maps the userId to
exactly the returned record; for a userId with no record it returns a record
with all counters zero; and a second `getUser` for the same userId returns
the same record and leaves the store untouched (get-or-create creates at
most once). -/
theorem getUser_get_or_create (s : Store) (uid now now2 : Nat) :
    findRec (getUser s uid now).2 uid = some (getUser s uid now).1
  ∧ (findRec s uid = none →
      (getUser s uid now).1.messageCount = 0 ∧
      (getUser s uid now).1.stickerCount = 0 ∧
      (getUser s uid now).1.totalActivity = 0)
  ∧ getUser (getUser s uid now).2 uid now2 =
      ((getUser s uid now).1, (getUser s uid now).2) := by
  refine ⟨findRec_getUser s uid now, ?_, getUser_getUser s uid now now2⟩
  intro h
  rw [getUser_of_absent s uid now h]
  exact ⟨rfl, rfl, rfl⟩

/-- Witness for C2 at a concrete input: userId 7 on the empty store. -/
theorem getUser_get_or_create_witness :
    findRec (getUser [] 7 0).2 7 = some (getUser [] 7 0).1
  ∧ ((getUser [] 7 0).1.messageCount = 0 ∧
      (getUser [] 7 0).1.stickerCount = 0 ∧
      (getUser [] 7 0).1.totalActivity = 0)
  ∧ getUser (getUser [] 7 0).2 7 1 = ((getUser [] 7 0).1, (getUser [] 7 0).2)
    := by
  have h := getUser_get_or_create [] 7 0 1
  exact ⟨h.1, h.2.1 rfl, h.2.2⟩

/-- Ranks at output position zero-based index `j` are `j + 1`. -/
theorem ranked_zero_get (l : List α) (j : Nat)
    (h : j < (ranked 0 l).length) :
    ((ranked 0 l).get ⟨j, h⟩).1 = j + 1 := by
  simpa using ranked_get l 0 j h

/-- C3: both leaderboard variants return at most `k` entries in
non-increasing total-activity order, and the file-backed variant returns the
empty list — not an error — when no record qualifies (none has positive
`totalActivity`). -/
theorem leaderboard_bounds (s : Store) (rows : List SqlRow) (k : Nat) :
    (getLeaderboard s k).length ≤ k
  ∧ (getLeaderboard s k).Pairwise
      (fun a b => b.2.totalActivity ≤ a.2.totalActivity)
  ∧ ((∀ kv ∈ s, ¬ 0 < (Prod.snd kv).totalActivity) →
      getLeaderboard s k = [])
  ∧ (dbGetLeaderboard rows k).length ≤ k
  ∧ (dbGetLeaderboard rows k).Pairwise
      (fun a b => b.2.total_activity ≤ a.2.total_activity) := by
  refine ⟨?_, ?_, ?_, ?_, ?_⟩
  · show (ranked 0 _).length ≤ k
    rw [ranked_length, List.length_take]
    exact min_le_left _ _
  · exact pairwise_ranked
      ((sortByDesc_pairwise UserRec.totalActivity _).sublist
        (List.take_sublist _ _)) 0
  · intro h
    show ranked 0 (((_ : List UserRec).filter _
        |> sortByDesc UserRec.totalActivity).take k) = []
    have hf : (s.map Prod.snd).filter
        (fun u => decide (0 < u.totalActivity)) = [] := by
      rw [List.filter_eq_nil_iff]
      intro u hu
      rcases List.mem_map.1 hu with ⟨kv, hkv, rfl⟩
      simpa using h kv hkv
    rw [hf]
    simp [sortByDesc, List.take_nil, ranked]
  · show (ranked 0 _).length ≤ k
    rw [ranked_length, List.length_take]
    exact min_le_left _ _
  · exact pairwise_ranked
      ((sortByDesc_pairwise SqlRow.total_activity _).sublist
        (List.take_sublist _ _)) 0

/-- Witness for C3 at a concrete input: the worked-example store, whose every
record happens to have positive activity, against an all-zero variant for the
empty-result conjunct. -/
theorem leaderboard_bounds_witness :
    (getLeaderboard [(9, emptyUser 9 0)] 10).length ≤ 10
  ∧ getLeaderboard [(9, emptyUser 9 0)] 10 = [] := by
  have h := leaderboard_bounds [(9, emptyUser 9 0)] [] 10
  refine ⟨h.1, h.2.2.1 ?_⟩
  intro kv hkv
  simp only [List.mem_singleton] at hkv
  subst hkv
  decide

/-- C4: both leaderboard variants assign dense 1-based ranks by output
position (the entry at zero-based index `j` carries rank `j + 1`, so equal
scores get distinct sequential ranks), and on the worked example
{A: total 15, B: total 11, C: total 7} the file-backed `getLeaderboard(10)`
returns exactly [rank 1: A, rank 2: B, rank 3: C]. -/
theorem leaderboard_ranks (s : Store) (rows : List SqlRow) (k j j2 : Nat)
    (h : j < (getLeaderboard s k).length)
    (h2 : j2 < (dbGetLeaderboard rows k).length) :
    ((getLeaderboard s k).get ⟨j, h⟩).1 = j + 1
  ∧ ((dbGetLeaderboard rows k).get ⟨j2, h2⟩).1 = j2 + 1
  ∧ getLeaderboard exampleStore 10 =
      [(1, exampleUserA), (2, exampleUserB), (3, exampleUserC)] := by
  exact ⟨ranked_zero_get _ j h, ranked_zero_get _ j2 h2, by decide⟩

/-- Witness for C4 at a concrete input: position 0 of each variant's output
on concrete stores. -/
theorem leaderboard_ranks_witness :
    ((getLeaderboard exampleStore 10).get ⟨0, by decide⟩).1 = 0 + 1
  ∧ ((dbGetLeaderboard [zeroRow] 10).get ⟨0, by decide⟩).1 = 0 + 1
  ∧ getLeaderboard exampleStore 10 =
      [(1, exampleUserA), (2, exampleUserB), (3, exampleUserC)] := by
  exact leaderboard_ranks exampleStore [zeroRow] 10 0 0 (by decide)
    (by decide)

/-- C5: the file-backed leaderboard only ever contains records of positive
`totalActivity`, while the SQL-backed variant applies no such filter: there
is a table state on which it returns a zero-activity user. -/
theorem leaderboard_activity_filter (s : Store) (k : Nat) :
    (∀ e ∈ getLeaderboard s k, 0 < e.2.totalActivity)
  ∧ (∃ rows k2, ∃ e ∈ dbGetLeaderboard rows k2, e.2.total_activity = 0) := by
  constructor
  · intro e he
    have h2 : e.2 ∈ ((s.map Prod.snd).filter
        (fun u => decide (0 < u.totalActivity))
          |> sortByDesc UserRec.totalActivity).take k := mem_ranked he
    have h3 := List.take_subset _ _ h2
    rw [mem_sortByDesc, List.mem_filter] at h3
    simpa using h3.2
  · exact ⟨[zeroRow], 10, (1, zeroRow), by decide, by decide⟩

/-- Witness for C5 at a concrete input: record A of the worked example sits
on the leaderboard, so its activity is positive. -/
theorem leaderboard_activity_filter_witness :
    0 < exampleUserA.totalActivity := by
  exact (leaderboard_activity_filter exampleStore 10).1 (1, exampleUserA)
    (by decide)

theorem findTimes_setTimes_self (st : RateLimits) (id : String)
    (ts : List Int) : findTimes (setTimes st id ts) id = some ts := by
  induction st with
  | nil => simp [setTimes, findTimes]
  | cons kv rest ih =>
    obtain ⟨k, v⟩ := kv
    by_cases h : k = id
    · simp [setTimes, findTimes, h]
    · simp [setTimes, findTimes, h, ih]

/-- C6 counterexample: at the window boundary the code and the claim's
procedure disagree.  With one request recorded at millisecond 0, `limit` 1
and `windowMs` 1000, a call at millisecond 1000 finds a request aged exactly
`windowMs`: the code prunes it (its filter keeps only strictly newer
timestamps) and accepts, while pruning only entries strictly older than
`now - windowMs`, as the claim words it, would retain it and reject. -/
theorem checkRateLimit_boundary_counterexample :
    (checkRateLimit rlBoundaryState ("u") 1 1000 1000).1 = true
  ∧ (specCheckRateLimit rlBoundaryState ("u") 1 1000 1000).1 = false
  ∧ checkRateLimit rlBoundaryState ("u") 1 1000 1000 ≠
      specCheckRateLimit rlBoundaryState ("u") 1 1000 1000 := by
  exact ⟨by decide, by decide, by decide⟩

/-- C6 amended: on each call the rate limiter prunes the identifier's
timestamps that are *at or before* `now - windowMs` (age at least
`windowMs`), accepts exactly when the kept count is below `limit`, on
rejection leaves the identifier's recorded timestamps unchanged (the new
attempt is not recorded), on acceptance stores the kept timestamps plus
`now`; with `limit=3, windowMs=1000`, four calls within 100ms for one
identifier yield [true, true, true, false]. -/
theorem checkRateLimit_amended (st : RateLimits) (id : String)
    (limit windowMs : Nat) (now : Int) :
    ((checkRateLimit st id limit windowMs now).1 = true ↔
      (((findTimes st id).getD []).filter
        (fun time => now - (windowMs : Int) < time)).length < limit)
  ∧ ((checkRateLimit st id limit windowMs now).1 = false →
      findTimes (checkRateLimit st id limit windowMs now).2 id =
        some ((findTimes st id).getD []))
  ∧ ((checkRateLimit st id limit windowMs now).1 = true →
      findTimes (checkRateLimit st id limit windowMs now).2 id =
        some ((((findTimes st id).getD []).filter
          (fun time => now - (windowMs : Int) < time)) ++ [now]))
  ∧ (runRateLimit [] "u" 3 1000 [0, 30, 60, 90]).1 =
      [true, true, true, false] := by
  have heq : checkRateLimit st id limit windowMs now =
      (if limit ≤ (((findTimes st id).getD []).filter
          (fun time => now - (windowMs : Int) < time)).length then
        (false,
          match findTimes st id with
          | some _ => st
          | none => setTimes st id [])
      else
        (true, setTimes
          (match findTimes st id with
           | some _ => st
           | none => setTimes st id [])
          id ((((findTimes st id).getD []).filter
            (fun time => now - (windowMs : Int) < time)) ++ [now]))) := by
    cases hfind : findTimes st id with
    | none => simp [checkRateLimit, hfind, findTimes_setTimes_self]
    | some ts => simp [checkRateLimit, hfind]
  refine ⟨?_, ?_, ?_, by decide⟩
  · by_cases hl : limit ≤ (((findTimes st id).getD []).filter
        (fun time => now - (windowMs : Int) < time)).length
    · rw [heq, if_pos hl]
      simp only [Bool.false_eq_true, false_iff]
      omega
    · rw [heq, if_neg hl]
      simp only [true_iff]
      omega
  · intro hfalse
    rw [heq] at hfalse ⊢
    by_cases hl : limit ≤ (((findTimes st id).getD []).filter
        (fun time => now - (windowMs : Int) < time)).length
    · rw [if_pos hl]
      cases hfind : findTimes st id with
      | none => exact findTimes_setTimes_self st id []
      | some ts => exact hfind
    · rw [if_neg hl] at hfalse
      simp at hfalse
  · intro htrue
    rw [heq] at htrue ⊢
    by_cases hl : limit ≤ (((findTimes st id).getD []).filter
        (fun time => now - (windowMs : Int) < time)).length
    · rw [if_pos hl] at htrue
      simp at htrue
    · rw [if_neg hl]
      exact findTimes_setTimes_self _ id _

/-- Witness for C6 (amended) at a concrete input: a first call on the empty
state accepts and records its timestamp. -/
theorem checkRateLimit_amended_witness :
    findTimes (checkRateLimit [] "u" 3 1000 0).2 ("u") = some [0] := by
  have h := (checkRateLimit_amended [] "u" 3 1000 0).2.2.1 (by decide)
  simpa using h

/-- C7: `restoreBackup` on a missing backup file, or on one whose payload
does not parse, returns `false` and leaves the current record set untouched;
in general whenever it reports failure the state is unchanged — only a fully
parsed payload replaces it. -/
theorem restoreBackup_failure (parse : String → Option Store)
    (files : List (String × String)) (current : Store)
    (filename : String) :
    (files.find? (fun f => f.1 = filename) = none →
      restoreBackup parse files current filename = (false, current))
  ∧ (∀ f, files.find? (fun f2 => f2.1 = filename) = some f →
      parse f.2 = none →
      restoreBackup parse files current filename = (false, current))
  ∧ ((restoreBackup parse files current filename).1 = false →
      (restoreBackup parse files current filename).2 = current) := by
  refine ⟨?_, ?_, ?_⟩
  · intro h
    simp [restoreBackup, h]
  · intro f hf hp
    simp [restoreBackup, hf, hp]
  · cases hfind : files.find? (fun f => f.1 = filename) with
    | none => simp [restoreBackup, hfind]
    | some f =>
      cases hp : parse f.2 with
      | none => simp [restoreBackup, hfind, hp]
      | some d => simp [restoreBackup, hfind, hp]

/-- Witness for C7 at concrete inputs: a missing file and a file whose
content fails to parse both fail without touching the store. -/
theorem restoreBackup_failure_witness :
    restoreBackup (fun _ => none) [("backup-a.json", "notjson")]
      [(1, aliceRec)] "backup-b.json" = (false, [(1, aliceRec)])
  ∧ restoreBackup (fun _ => none) [("backup-a.json", "notjson")]
      [(1, aliceRec)] "backup-a.json" = (false, [(1, aliceRec)]) := by
  have h1 := restoreBackup_failure (fun _ => none)
    [("backup-a.json", "notjson")] [(1, aliceRec)] "backup-b.json"
  have h2 := restoreBackup_failure (fun _ => none)
    [("backup-a.json", "notjson")] [(1, aliceRec)] "backup-a.json"
  exact ⟨h1.1 (by decide),
    h2.2.1 ("backup-a.json", "notjson") (by decide) rfl⟩

/-- C8: event classification follows the fixed precedence
sticker > photo > video > document > voice > text > other with first match
winning: `getMessageType` agrees with the spec's first-match-in-precedence
classifier on every event, any event with a sticker payload is classified
"sticker", and the concrete event carrying both a sticker payload and text
is classified "sticker", never "text". -/
theorem getMessageType_precedence (m : Msg) :
    getMessageType m = classifySpec m
  ∧ (m.sticker = true → getMessageType m = "sticker")
  ∧ getMessageType
      { sticker := true, photo := false, video := false, document := false,
        voice := false, text := true } = "sticker" := by
  refine ⟨?_, ?_, rfl⟩
  · obtain ⟨s, p, v, d, vc, t⟩ := m
    cases s <;> cases p <;> cases v <;> cases d <;> cases vc <;> cases t <;>
      rfl
  · intro h
    simp [getMessageType, h]

/-- Witness for C8 at a concrete input: an event carrying every payload kind
is classified "sticker". -/
theorem getMessageType_precedence_witness :
    getMessageType
      { sticker := true, photo := true, video := true, document := true,
        voice := true, text := true } = "sticker" := by
  exact (getMessageType_precedence
    { sticker := true, photo := true, video := true, document := true,
      voice := true, text := true }).2.1 rfl

/-- C9 counterexample: `updateUser` on a record whose stored username is the
non-null "alice", with an updates object whose `username` key is present
with a null value, stores null — the supplied null does not leave the field
unchanged, contradicting last-non-null-wins; the SQL `createOrUpdateUser`
likewise overwrites the stored username with the supplied null. -/
theorem updateUser_null_overwrites :
    (findRec (updateUser [(5, aliceRec)] 5 nullPatch 1) 5).map
      UserRec.username = some none
  ∧ ¬ ((findRec (updateUser [(5, aliceRec)] 5 nullPatch 1) 5).map
      UserRec.username = some (some ("alice")))
  ∧ ((createOrUpdateUser [aliceRow] 5 none none none).find?
      (fun r => r.id = 5)).map SqlRow.username = some none := by
  exact ⟨by decide, by decide, by decide⟩

/-- C9 amended: the display-info merge is last-write-wins over the keys
present in the patch: a key absent from the updates object leaves the stored
field unchanged, while a present key overwrites the stored field with the
supplied value, null included; the SQL `createOrUpdateUser` overwrites all
three display columns of the affected row with the supplied values, null
included. -/
theorem updateUser_merge (s : Store) (uid : Nat) (p : Updates) (now : Nat)
    (u0 : UserRec) (h : findRec s uid = some u0) :
    (findRec (updateUser s uid p now) uid).map UserRec.username =
      some (p.username.getD u0.username)
  ∧ (findRec (updateUser s uid p now) uid).map UserRec.firstName =
      some (p.firstName.getD u0.firstName)
  ∧ (∀ rows id un fn ln, ∀ r ∈ createOrUpdateUser rows id un fn ln,
      r.id = id → r.username = un ∧ r.first_name = fn ∧ r.last_name = ln)
    := by
  refine ⟨?_, ?_, ?_⟩
  · simp [updateUser, getUser, h, findRec_setRec_self, objectAssign]
  · simp [updateUser, getUser, h, findRec_setRec_self, objectAssign]
  · intro rows id un fn ln r hr hid
    unfold createOrUpdateUser at hr
    cases hfind : rows.find? (fun r2 => r2.id = id) with
    | none =>
      rw [hfind] at hr
      rcases List.mem_append.1 hr with hr1 | hr2
      · have := List.find?_eq_none.1 hfind r hr1
        simp [hid] at this
      · simp only [List.mem_singleton] at hr2
        subst hr2
        exact ⟨rfl, rfl, rfl⟩
    | some r0 =>
      rw [hfind] at hr
      rcases List.mem_map.1 hr with ⟨r1, hr1, rfl⟩
      by_cases h1 : r1.id = id
      · simp [h1]
      · simp only [if_neg h1] at hid
        exact absurd hid h1

/-- Witness for C9 (amended) at concrete inputs: the null-valued patch
overwrites "alice", and a conflicting SQL upsert with null columns
overwrites the existing row's display columns. -/
theorem updateUser_merge_witness :
    (findRec (updateUser [(5, aliceRec)] 5 nullPatch 1) 5).map
      UserRec.username = some (nullPatch.username.getD aliceRec.username)
  ∧ (findRec (updateUser [(5, aliceRec)] 5 nullPatch 1) 5).map
      UserRec.firstName = some (nullPatch.firstName.getD aliceRec.firstName)
  ∧ ({ aliceRow with
       username := none, first_name := none, last_name := none }
      : SqlRow).username = none := by
  have h := updateUser_merge [(5, aliceRec)] 5 nullPatch 1 aliceRec
    (by decide)
  exact ⟨h.1, h.2.1,
    (h.2.2 [aliceRow] 5 none none none
      { aliceRow with
        username := none, first_name := none, last_name := none }
      (by decide) (by decide)).1⟩

/-- C10: for every event type other than "sticker" — "photo", "video",
"document", "voice" or anything else — `incrementUserActivity` increments
`messageCount` by exactly 1 and leaves `stickerCount` unchanged, relative to
the get-or-created record; only the type "sticker" increments
`stickerCount`, and it leaves `messageCount` unchanged. -/
theorem incrementUserActivity_counts (s : Store) (uid : Nat) (type : String)
    (now : Nat) :
    (type ≠ "sticker" →
      (findRec (incrementUserActivity s uid type now) uid).map
        UserRec.messageCount = some ((getUser s uid now).1.messageCount + 1)
      ∧ (findRec (incrementUserActivity s uid type now) uid).map
        UserRec.stickerCount = some ((getUser s uid now).1.stickerCount))
  ∧ (type = "sticker" →
      (findRec (incrementUserActivity s uid type now) uid).map
        UserRec.stickerCount = some ((getUser s uid now).1.stickerCount + 1)
      ∧ (findRec (incrementUserActivity s uid type now) uid).map
        UserRec.messageCount = some ((getUser s uid now).1.messageCount))
    := by
  constructor
  · intro h
    simp [incrementUserActivity, if_neg h, findRec_setRec_self]
  · intro h
    simp [incrementUserActivity, if_pos h, findRec_setRec_self]

/-- Witness for C10 at concrete inputs: a "photo" event bumps only
`messageCount`, a "sticker" event bumps only `stickerCount`. -/
theorem incrementUserActivity_counts_witness :
    ((findRec (incrementUserActivity [] 5 ("photo") 0) 5).map
        UserRec.messageCount = some ((getUser [] 5 0).1.messageCount + 1)
      ∧ (findRec (incrementUserActivity [] 5 ("photo") 0) 5).map
        UserRec.stickerCount = some ((getUser [] 5 0).1.stickerCount))
  ∧ ((findRec (incrementUserActivity [] 5 ("sticker") 0) 5).map
        UserRec.stickerCount = some ((getUser [] 5 0).1.stickerCount + 1)
      ∧ (findRec (incrementUserActivity [] 5 ("sticker") 0) 5).map
        UserRec.messageCount = some ((getUser [] 5 0).1.messageCount)) := by
  exact ⟨(incrementUserActivity_counts [] 5 ("photo") 0).1 (by decide),
    (incrementUserActivity_counts [] 5 ("sticker") 0).2 rfl⟩

end TelegramBot
